import Mathlib

/-!
Shallow embedding of the ai-text-tool Editor.js plugin (src/index.ts,
src/inline.ts) and proofs about its claimed behaviour.

The inline tool (AITextInlineTool) is modelled as a state machine over an
explicit widget state plus the children list of the DOM element that
contains the selection.  The block tool (AITextTool) is modelled through
its persisted data record, its render function and the click handler of
the generate button.  The streaming chat-completion call is modelled by
its observable outcome: the finite list of text fragments the stream
yields, or a thrown transport error after some fragments.
-/

set_option maxHeartbeats 1000000

namespace AiText

/-- Model of the JavaScript String.prototype.trim used throughout the
source: drops leading and trailing whitespace characters. -/
def trimString (s : String) : String :=
  String.mk (((s.data.dropWhile Char.isWhitespace).reverse.dropWhile
    Char.isWhitespace).reverse)

/-- A node in the children list of the DOM element holding the selection:
a plain text node, the preview span created by the inline tool (carrying
its current text content and whether the pending-decision highlight is
set), the loading spinner, or the accept/reject controls container. -/
inductive DomNode where
  | text (s : String)
  | preview (s : String) (highlighted : Bool)
  | spinner
  | controls
deriving DecidableEq, Repr

def isPreview : DomNode → Bool
  | .preview _ _ => true
  | _ => false

def isControls : DomNode → Bool
  | .controls => true
  | _ => false

/-- Document text contributed by one node.  The spinner and the controls
container carry no document text. -/
def nodeText : DomNode → String
  | .text s => s
  | .preview s _ => s
  | .spinner => ""
  | .controls => ""

/-- Concatenated document text of a children list. -/
def textOf (l : List DomNode) : String :=
  l.foldr (fun n acc => nodeText n ++ acc) ""

/-- One step of DOM Node.normalize over a children list, processed from
the right: empty text nodes are dropped and adjacent text nodes merged. -/
def normStep (n : DomNode) (acc : List DomNode) : List DomNode :=
  match n with
  | .text a =>
    if a = "" then acc
    else
      match acc with
      | .text b :: rest => .text (a ++ b) :: rest
      | _ => .text a :: acc
  | _ => n :: acc

/-- Model of parent.normalize() as called by acceptChange/rejectChange. -/
def domNormalize (l : List DomNode) : List DomNode :=
  l.foldr normStep []

/-- Model of parent.replaceChild(textNode, previewSpan): the first preview
node in the children list is replaced by a plain text node holding t. -/
def replacePreviewWithText (t : String) : List DomNode → List DomNode
  | [] => []
  | n :: rest =>
    if isPreview n then DomNode.text t :: rest
    else n :: replacePreviewWithText t rest

/-- Model of parent.removeChild(controlsContainer): the first controls
node in the children list is removed. -/
def removeFirstControls : List DomNode → List DomNode
  | [] => []
  | n :: rest => if isControls n then rest else n :: removeFirstControls rest

/-- Text content of the first preview node in the children list; this is
what previewSpan.textContent reads in acceptChange. -/
def previewContent (l : List DomNode) : String :=
  match l.find? isPreview with
  | some (.preview s _) => s
  | _ => ""

/-- Observable outcome of the upstream chat-completion stream: either it
ends normally after yielding the given fragments, or it throws an Error
with the given message after yielding some fragments. -/
inductive StreamOutcome where
  | ok (chunks : List String)
  | fail (yielded : List String) (msg : String)
deriving DecidableEq, Repr

/-- The fullText accumulator of the streaming loop, starting from acc:
each non-empty fragment is appended, empty fragments are skipped
(the loop body runs only under if (content)). -/
def accumulateFrom (acc : String) : List String → String
  | [] => acc
  | c :: rest =>
    if c = "" then accumulateFrom acc rest else accumulateFrom (acc ++ c) rest

def accumulate (chunks : List String) : String :=
  accumulateFrom "" chunks

/-- The successive values written into outputElement.textContent by the
streaming loop: for each non-empty fragment the full accumulator so far. -/
def renderWritesFrom (acc : String) : List String → List String
  | [] => []
  | c :: rest =>
    if c = "" then renderWritesFrom acc rest
    else (acc ++ c) :: renderWritesFrom (acc ++ c) rest

def renderWrites (chunks : List String) : List String :=
  renderWritesFrom "" chunks

/-- Plain concatenation of a fragment list, used as the specification-side
expression for the accumulated stream text. -/
def concatAll (l : List String) : String :=
  l.foldr (· ++ ·) ""

/-- Specification-side expression for the progression of output texts:
the concatenations of the non-empty prefixes of the fragment list. -/
def prefixJoins : List String → List String
  | [] => []
  | c :: rest => c :: (prefixJoins rest).map (fun s => c ++ s)

/-- Literal written by the inline tool when no API key is configured. -/
def noApiKeyMsg : String := "Error: No API key configured."

/-- Literal written when the stream completes with no content. -/
def noContentMsg : String := "Error: No content received from AI."

/-- Literal returned by the block tool when no API key is configured. -/
def blockNoKeyMsg : String :=
  "Error: No API key configured. Please add your OpenAI API key."

/-- Literal returned by the block tool for a blank prompt. -/
def emptyPromptMsg : String := "Please enter a prompt first."

/-- Observable behaviour of one call of
AITextInlineTool.generateTextWithStreaming: whether the chat-completion
request was issued, the successive writes to the output span, and the text
the output span holds when the call returns. -/
structure StreamRun where
  requestIssued : Bool
  writes : List String
  finalText : String
deriving DecidableEq, Repr

/-- Model of AITextInlineTool.generateTextWithStreaming (inline.ts).
The missing-key check precedes the request; a transport error is caught
and converted to an error string written in place; an effectively empty
stream yields the fixed no-content message.  The output span always ends
up holding finalText because every branch writes at least once. -/
def generateTextWithStreaming (apiKey : String) (outcome : StreamOutcome) :
    StreamRun :=
  if apiKey = "" then
    { requestIssued := false, writes := [noApiKeyMsg], finalText := noApiKeyMsg }
  else
    match outcome with
    | .fail yielded msg =>
      { requestIssued := true
        writes := renderWrites yielded ++ ["Error: " ++ msg]
        finalText := "Error: " ++ msg }
    | .ok chunks =>
      if (trimString (accumulate chunks)) = "" then
        { requestIssued := true
          writes := renderWrites chunks ++ [noContentMsg]
          finalText := noContentMsg }
      else
        { requestIssued := true
          writes := renderWrites chunks
          finalText := accumulate chunks }

/-- Widget-held fields of AITextInlineTool that the claims are about.
Node references are modelled as presence flags; outsideClickHandler is
whether the document-level click listener is currently registered. -/
structure InlineState where
  isProcessing : Bool
  originalText : String
  currentSelectedText : String
  hasRange : Bool
  previewSpanRef : Bool
  controlsRef : Bool
  outsideClickHandler : Bool
deriving DecidableEq, Repr

/-- Freshly constructed inline tool instance. -/
def idleState : InlineState :=
  { isProcessing := false, originalText := "", currentSelectedText := ""
    hasRange := false, previewSpanRef := false, controlsRef := false
    outsideClickHandler := false }

/-- Widget state together with its observable environment: the children
list of the parent element of the selection, the alert dialogs shown, the
number of chat-completion requests issued, whether a change notification
was dispatched, and whether the nearest editable ancestor exists. -/
structure InlineWorld where
  st : InlineState
  dom : List DomNode
  alerts : List String
  requests : Nat
  notified : Bool
  hasEditableAncestor : Bool
deriving DecidableEq, Repr

/-- Model of AITextInlineTool.surround: when a generation is in flight the
call returns immediately; otherwise the trimmed selection is snapshotted
(empty selections are refused) and the range is cloned and stored. -/
def surround (st : InlineState) (rangeText : String) : InlineState :=
  if st.isProcessing then st
  else
    if trimString rangeText = "" then st
    else
      { st with
          originalText := trimString rangeText
          hasRange := true
          currentSelectedText := trimString rangeText }

/-- Model of AITextInlineTool.handleGenerate run to completion.  The range
covers sel, sitting between pre and post inside the children list of its
parent.  A blank prompt only raises an alert.  Otherwise the model covers
the whole async body: isProcessing is set (and reset at the end), the
range contents are deleted and replaced by the preview span seeded with
the selected text, the streaming call runs, the spinner is removed, the
highlight is applied, the controls are inserted after the preview, and the
outside-click listener is (re)installed. -/
def handleGenerate (w : InlineWorld) (pre sel post : List DomNode)
    (selectedText userPrompt apiKey : String) (outcome : StreamOutcome) :
    InlineWorld :=
  if trimString userPrompt = "" then
    { w with alerts := w.alerts ++ ["Please enter a prompt"] }
  else
    let run := generateTextWithStreaming apiKey outcome
    { st := { w.st with
                isProcessing := false
                previewSpanRef := true
                controlsRef := true
                outsideClickHandler := true }
      dom := pre ++ [DomNode.preview run.finalText true, DomNode.controls] ++ post
      alerts := w.alerts
      requests := w.requests + (if run.requestIssued then 1 else 0)
      notified := w.notified
      hasEditableAncestor := w.hasEditableAncestor }

/-- Model of AITextInlineTool.triggerEditorChange: dispatches an input
event to the nearest contenteditable ancestor when one exists. -/
def triggerEditorChange (w : InlineWorld) : InlineWorld :=
  if w.hasEditableAncestor then { w with notified := true } else w

/-- Model of AITextInlineTool.removeControls: when the controls reference
is set and the node has a parent, the node is detached and the reference
cleared. -/
def removeControls (w : InlineWorld) : InlineWorld :=
  if w.st.controlsRef && w.dom.any isControls then
    { w with
        dom := removeFirstControls w.dom
        st := { w.st with controlsRef := false } }
  else w

/-- Model of AITextInlineTool.cleanupEventHandlers: deregisters the
document-level outside-click listener when present. -/
def cleanupEventHandlers (st : InlineState) : InlineState :=
  if st.outsideClickHandler then { st with outsideClickHandler := false }
  else st

/-- Shared tail of acceptChange and rejectChange: removeControls, then
cleanupEventHandlers, then previewSpan is set to null. -/
def finishDecision (w : InlineWorld) : InlineWorld :=
  let w2 := removeControls w
  { w2 with st := { cleanupEventHandlers w2.st with previewSpanRef := false } }

/-- Model of AITextInlineTool.acceptChange: when the preview span has a
parent it is replaced by a plain text node holding its current text
content, the parent is normalized and the editor notified; then controls,
listener and references are cleaned up unconditionally. -/
def acceptChange (w : InlineWorld) : InlineWorld :=
  finishDecision
    (if w.dom.any isPreview then
      triggerEditorChange
        { w with
            dom := domNormalize (replacePreviewWithText (previewContent w.dom) w.dom) }
    else w)

/-- Model of AITextInlineTool.rejectChange: as acceptChange but the
replacement text node holds the snapshotted originalText. -/
def rejectChange (w : InlineWorld) : InlineWorld :=
  finishDecision
    (if w.dom.any isPreview then
      triggerEditorChange
        { w with
            dom := domNormalize (replacePreviewWithText w.st.originalText w.dom) }
    else w)

/-- Persisted data record of the block tool. -/
structure AITextData where
  prompt : String
  generatedText : String
deriving DecidableEq, Repr

/-- The two mutually exclusive views the block tool can render: the
read-back view (an editable region seeded with the generated text) or the
prompt-entry view (prompt field plus generate button, the button hidden
while the trimmed field is empty). -/
inductive BlockView where
  | readBack (text : String) (editable : Bool)
  | promptEntry (prompt : String) (buttonVisible : Bool) (editable : Bool)
deriving DecidableEq, Repr

def BlockView.isReadBack : BlockView → Bool
  | .readBack _ _ => true
  | _ => false

/-- Model of AITextTool.render (index.ts): when generatedText is truthy
(non-empty) the read-back view is rendered, otherwise the prompt-entry
view with the button initially hidden for a blank prompt. -/
def render (data : AITextData) (readOnly : Bool) : BlockView :=
  if data.generatedText ≠ "" then
    BlockView.readBack data.generatedText (!readOnly)
  else
    BlockView.promptEntry data.prompt (!(trimString data.prompt = "")) (!readOnly)

/-- Observable behaviour of one call of AITextTool.generateText. -/
structure GenRun where
  requestIssued : Bool
  writes : List String
  returned : String
deriving DecidableEq, Repr

/-- Model of AITextTool.generateText (index.ts): missing key and blank
prompt are rejected before the request; a normal stream accumulates the
non-empty deltas while writing each accumulation to the output element,
returning the trimmed accumulation or the no-content message; a thrown
error is caught and converted to the transport error string. -/
def generateText (apiKey promptText : String) (outcome : StreamOutcome) :
    GenRun :=
  if apiKey = "" then
    { requestIssued := false, writes := [], returned := blockNoKeyMsg }
  else if trimString promptText = "" then
    { requestIssued := false, writes := [], returned := emptyPromptMsg }
  else
    match outcome with
    | .fail yielded msg =>
      { requestIssued := true
        writes := renderWrites yielded
        returned := "Error generating text: " ++ msg }
    | .ok chunks =>
      if trimString (accumulate chunks) = "" then
        { requestIssued := true
          writes := renderWrites chunks
          returned := noContentMsg }
      else
        { requestIssued := true
          writes := renderWrites chunks
          returned := trimString (accumulate chunks) }

/-- Model of the click handler of the generate button in AITextTool.render:
generateText runs on the prompt read from the input element; a truthy
(non-empty) result is persisted into the data record together with the
prompt and the container content is swapped to the read-back view; an
empty result leaves data and view untouched (none means the view kept its
previous content). -/
def generateButtonClick (data : AITextData) (promptText apiKey : String)
    (outcome : StreamOutcome) (readOnly : Bool) :
    AITextData × Option BlockView × GenRun :=
  let run := generateText apiKey promptText outcome
  if run.returned ≠ "" then
    ({ prompt := promptText, generatedText := run.returned },
     some (BlockView.readBack run.returned (!readOnly)), run)
  else
    (data, none, run)

/-- Convenience constructor for a concrete world: given widget state and
children list, no alerts or requests yet, no notification dispatched, and
an editable ancestor present. -/
def mkWorld (st : InlineState) (dom : List DomNode) : InlineWorld :=
  { st := st, dom := dom, alerts := [], requests := 0, notified := false
    hasEditableAncestor := true }

/-! Helper lemmas. -/

theorem append_left_ne_empty (s t : String) (h : s ≠ "") : s ++ t ≠ "" := by
  intro heq
  apply h
  apply String.ext
  have hd : (s ++ t).data = [] := by rw [heq]
  rw [String.data_append] at hd
  exact List.append_eq_nil.mp hd |>.1

theorem any_normStep (p : DomNode → Bool)
    (hp : ∀ a, p (DomNode.text a) = false) (n : DomNode) (acc : List DomNode) :
    (normStep n acc).any p = (p n || acc.any p) := by
  cases n with
  | text a =>
    by_cases ha : a = ""
    · simp [normStep, ha, hp]
    · cases acc with
      | nil => simp [normStep, ha]
      | cons hd tl =>
        cases hd <;> simp [normStep, ha, hp]
  | preview s hl => simp [normStep]
  | spinner => simp [normStep]
  | controls => simp [normStep]

theorem any_domNormalize (p : DomNode → Bool)
    (hp : ∀ a, p (DomNode.text a) = false) (l : List DomNode) :
    (domNormalize l).any p = l.any p := by
  induction l with
  | nil => rfl
  | cons n rest ih =>
    show (normStep n (domNormalize rest)).any p = _
    rw [any_normStep p hp, ih]
    simp

theorem textOf_normStep (n : DomNode) (acc : List DomNode) :
    textOf (normStep n acc) = nodeText n ++ textOf acc := by
  cases n with
  | text a =>
    by_cases ha : a = ""
    · simp [normStep, ha, nodeText, String.empty_append]
    · cases acc with
      | nil => simp [normStep, ha, textOf, nodeText]
      | cons hd tl =>
        cases hd <;>
          simp [normStep, ha, textOf, nodeText, String.append_assoc]
  | preview s hl => simp [normStep, textOf, nodeText]
  | spinner => simp [normStep, textOf, nodeText]
  | controls => simp [normStep, textOf, nodeText]

theorem textOf_domNormalize (l : List DomNode) :
    textOf (domNormalize l) = textOf l := by
  induction l with
  | nil => rfl
  | cons n rest ih =>
    show textOf (normStep n (domNormalize rest)) = _
    rw [textOf_normStep, ih]
    rfl

theorem textOf_append (a b : List DomNode) :
    textOf (a ++ b) = textOf a ++ textOf b := by
  induction a with
  | nil => simp [textOf, String.empty_append]
  | cons n rest ih =>
    show nodeText n ++ textOf (rest ++ b) = (nodeText n ++ textOf rest) ++ textOf b
    rw [ih, String.append_assoc]

theorem normStep_append (n : DomNode) (L acc : List DomNode)
    (hacc : ∀ b rest, acc ≠ DomNode.text b :: rest) :
    normStep n (L ++ acc) = normStep n L ++ acc := by
  cases n with
  | text a =>
    by_cases ha : a = ""
    · simp [normStep, ha]
    · cases L with
      | nil =>
        cases acc with
        | nil => simp [normStep, ha]
        | cons hd tl =>
          cases hd with
          | text b => exact absurd rfl (hacc b tl)
          | preview s hl => simp [normStep, ha]
          | spinner => simp [normStep, ha]
          | controls => simp [normStep, ha]
      | cons hd tl =>
        cases hd <;> simp [normStep, ha]
  | preview s hl => simp [normStep]
  | spinner => simp [normStep]
  | controls => simp [normStep]

theorem foldr_normStep_append (X acc : List DomNode)
    (hacc : ∀ b rest, acc ≠ DomNode.text b :: rest) :
    X.foldr normStep acc = domNormalize X ++ acc := by
  induction X with
  | nil => rfl
  | cons n rest ih =>
    show normStep n (rest.foldr normStep acc) = normStep n (domNormalize rest) ++ acc
    rw [ih, normStep_append n (domNormalize rest) acc hacc]

theorem domNormalize_controls_split (X Y : List DomNode) :
    domNormalize (X ++ DomNode.controls :: Y) =
      domNormalize X ++ DomNode.controls :: domNormalize Y := by
  show (X ++ DomNode.controls :: Y).foldr normStep [] = _
  rw [List.foldr_append]
  show X.foldr normStep (normStep DomNode.controls (domNormalize Y)) = _
  rw [show normStep DomNode.controls (domNormalize Y)
        = DomNode.controls :: domNormalize Y from rfl]
  exact foldr_normStep_append X (DomNode.controls :: domNormalize Y)
    (by intro b rest h; cases h)

theorem replace_shape (t : String) (pre : List DomNode) (s : String)
    (hl : Bool) (post : List DomNode)
    (hpre : ∀ n ∈ pre, isPreview n = false) :
    replacePreviewWithText t (pre ++ DomNode.preview s hl :: post) =
      pre ++ DomNode.text t :: post := by
  induction pre with
  | nil => simp [replacePreviewWithText, isPreview]
  | cons n rest ih =>
    have hn : isPreview n = false := hpre n (by simp)
    have hrest : ∀ m ∈ rest, isPreview m = false := fun m hm =>
      hpre m (by simp [hm])
    simp [replacePreviewWithText, hn, ih hrest]

theorem removeFirstControls_shape (A B : List DomNode)
    (hA : ∀ n ∈ A, isControls n = false) :
    removeFirstControls (A ++ DomNode.controls :: B) = A ++ B := by
  induction A with
  | nil => simp [removeFirstControls, isControls]
  | cons n rest ih =>
    have hn : isControls n = false := hA n (by simp)
    have hrest : ∀ m ∈ rest, isControls m = false := fun m hm =>
      hA m (by simp [hm])
    simp [removeFirstControls, hn, ih hrest]

theorem previewContent_shape (pre : List DomNode) (s : String) (hl : Bool)
    (post : List DomNode) (hpre : ∀ n ∈ pre, isPreview n = false) :
    previewContent (pre ++ DomNode.preview s hl :: post) = s := by
  induction pre with
  | nil => simp [previewContent, List.find?, isPreview]
  | cons n rest ih =>
    have hn : isPreview n = false := hpre n (by simp)
    have hrest : ∀ m ∈ rest, isPreview m = false := fun m hm =>
      hpre m (by simp [hm])
    show previewContent (n :: (rest ++ DomNode.preview s hl :: post)) = s
    rw [previewContent, List.find?]
    rw [hn]
    exact ih hrest

theorem accumulateFrom_eq (acc : String) (chunks : List String) :
    accumulateFrom acc chunks = acc ++ concatAll chunks := by
  induction chunks generalizing acc with
  | nil => simp [accumulateFrom, concatAll]
  | cons c rest ih =>
    by_cases hc : c = ""
    · simp [accumulateFrom, hc, concatAll, ih, String.empty_append]
    · show accumulateFrom acc (c :: rest) = acc ++ concatAll (c :: rest)
      rw [accumulateFrom]
      simp only [hc, if_false]
      rw [ih]
      show (acc ++ c) ++ concatAll rest = acc ++ (c ++ concatAll rest)
      rw [String.append_assoc]

theorem accumulate_eq (chunks : List String) :
    accumulate chunks = concatAll chunks := by
  rw [accumulate, accumulateFrom_eq, String.empty_append]

theorem renderWritesFrom_eq (acc : String) (chunks : List String)
    (h : ∀ c ∈ chunks, c ≠ "") :
    renderWritesFrom acc chunks = (prefixJoins chunks).map (fun s => acc ++ s) := by
  induction chunks generalizing acc with
  | nil => rfl
  | cons c rest ih =>
    have hc : c ≠ "" := h c (by simp)
    have hrest : ∀ d ∈ rest, d ≠ "" := fun d hd => h d (by simp [hd])
    rw [renderWritesFrom]
    simp only [hc, if_false]
    rw [ih (acc ++ c) hrest, prefixJoins]
    simp [List.map_map, Function.comp, String.append_assoc]

theorem renderWrites_eq (chunks : List String) (h : ∀ c ∈ chunks, c ≠ "") :
    renderWrites chunks = prefixJoins chunks := by
  rw [renderWrites, renderWritesFrom_eq "" chunks h]
  have : (fun s => "" ++ s) = fun s : String => s := by
    funext s
    exact String.empty_append s
  rw [this]
  exact List.map_id (prefixJoins chunks)

theorem triggerEditorChange_dom (w : InlineWorld) :
    (triggerEditorChange w).dom = w.dom := by
  by_cases h : w.hasEditableAncestor <;> simp [triggerEditorChange, h]

theorem triggerEditorChange_st (w : InlineWorld) :
    (triggerEditorChange w).st = w.st := by
  by_cases h : w.hasEditableAncestor <;> simp [triggerEditorChange, h]

theorem cleanup_handler (st : InlineState) :
    (cleanupEventHandlers st).outsideClickHandler = false := by
  by_cases h : st.outsideClickHandler <;> simp [cleanupEventHandlers, h]

theorem cleanup_previewSpanRef (st : InlineState) :
    (cleanupEventHandlers st).previewSpanRef = st.previewSpanRef := by
  by_cases h : st.outsideClickHandler <;> simp [cleanupEventHandlers, h]

theorem cleanup_controlsRef (st : InlineState) :
    (cleanupEventHandlers st).controlsRef = st.controlsRef := by
  by_cases h : st.outsideClickHandler <;> simp [cleanupEventHandlers, h]

theorem cleanup_originalText (st : InlineState) :
    (cleanupEventHandlers st).originalText = st.originalText := by
  by_cases h : st.outsideClickHandler <;> simp [cleanupEventHandlers, h]

theorem domNormalize_controls_free (A : List DomNode)
    (hA : ∀ n ∈ A, isControls n = false) :
    ∀ n ∈ domNormalize A, isControls n = false := by
  have hany : (domNormalize A).any isControls = false := by
    rw [any_domNormalize isControls (fun a => rfl)]
    exact List.any_eq_false.mpr (by intro x hx; simp [hA x hx])
  intro n hn
  have := List.any_eq_false.mp hany n hn
  simpa using this

/-- Shared computation of the decision commit on the children list: the
first preview node is replaced by a text node holding t, the parent is
normalized, and the controls node is removed. -/
theorem commit_dom (t : String) (pre post : List DomNode) (s : String)
    (hl : Bool)
    (hpreP : ∀ n ∈ pre, isPreview n = false)
    (hpreC : ∀ n ∈ pre, isControls n = false) :
    removeFirstControls (domNormalize (replacePreviewWithText t
      (pre ++ DomNode.preview s hl :: DomNode.controls :: post))) =
    domNormalize (pre ++ [DomNode.text t]) ++ domNormalize post := by
  rw [replace_shape t pre s hl (DomNode.controls :: post) hpreP]
  have hsplit : pre ++ DomNode.text t :: DomNode.controls :: post
      = (pre ++ [DomNode.text t]) ++ DomNode.controls :: post := by
    simp
  rw [hsplit, domNormalize_controls_split]
  apply removeFirstControls_shape
  apply domNormalize_controls_free
  intro n hn
  rcases List.mem_append.mp hn with h | h
  · exact hpreC n h
  · simp at h
    subst h
    rfl

theorem acceptChange_shape (w : InlineWorld) (pre post : List DomNode)
    (s : String) (hl : Bool)
    (hdom : w.dom = pre ++ DomNode.preview s hl :: DomNode.controls :: post)
    (hpre : ∀ n ∈ pre, isPreview n = false ∧ isControls n = false)
    (hctr : w.st.controlsRef = true) :
    (acceptChange w).dom
      = domNormalize (pre ++ [DomNode.text s]) ++ domNormalize post ∧
    (acceptChange w).st.previewSpanRef = false ∧
    (acceptChange w).st.controlsRef = false ∧
    (acceptChange w).st.outsideClickHandler = false ∧
    (acceptChange w).st.originalText = w.st.originalText := by
  have hPre : ∀ n ∈ pre, isPreview n = false := fun n hn => (hpre n hn).1
  have hPreC : ∀ n ∈ pre, isControls n = false := fun n hn => (hpre n hn).2
  have hanyP : w.dom.any isPreview = true := by
    rw [hdom]; simp [isPreview]
  have hcontent : previewContent w.dom = s := by
    rw [hdom]; exact previewContent_shape pre s hl _ hPre
  have hmid : domNormalize (replacePreviewWithText (previewContent w.dom) w.dom)
      = domNormalize (pre ++ [DomNode.text s]) ++
          DomNode.controls :: domNormalize post := by
    rw [hcontent, hdom, replace_shape s pre s hl _ hPre]
    have hsplit : pre ++ DomNode.text s :: DomNode.controls :: post
        = (pre ++ [DomNode.text s]) ++ DomNode.controls :: post := by simp
    rw [hsplit, domNormalize_controls_split]
  have hstep : acceptChange w = finishDecision (triggerEditorChange
      { w with dom := domNormalize (replacePreviewWithText (previewContent w.dom) w.dom) }) := by
    rw [acceptChange, hanyP]
    simp
  obtain ⟨D, hDdef⟩ : ∃ D, domNormalize (pre ++ [DomNode.text s]) ++
      DomNode.controls :: domNormalize post = D := ⟨_, rfl⟩
  rw [hstep, hmid, hDdef]
  have hw1dom : (triggerEditorChange { w with dom := D }).dom = D :=
    triggerEditorChange_dom _
  have hw1st : (triggerEditorChange { w with dom := D }).st = w.st :=
    triggerEditorChange_st _
  generalize hgen : triggerEditorChange { w with dom := D } = w1 at hw1dom hw1st
  have hguard : (w1.st.controlsRef && w1.dom.any isControls) = true := by
    rw [hw1st, hctr, hw1dom, ← hDdef]
    simp [isControls]
  have hrc : removeControls w1 = { w1 with
      dom := removeFirstControls w1.dom
      st := { w1.st with controlsRef := false } } := by
    rw [removeControls, hguard]
    simp
  have hrcdom : removeFirstControls w1.dom
      = domNormalize (pre ++ [DomNode.text s]) ++ domNormalize post := by
    rw [hw1dom, ← hDdef]
    apply removeFirstControls_shape
    apply domNormalize_controls_free
    intro n hn
    rcases List.mem_append.mp hn with h | h
    · exact hPreC n h
    · simp at h
      subst h
      rfl
  refine ⟨?_, ?_, ?_, ?_, ?_⟩ <;>
    simp [finishDecision, hrc, hrcdom, cleanup_controlsRef, cleanup_handler,
      cleanup_previewSpanRef, cleanup_originalText, hw1st]

theorem rejectChange_shape (w : InlineWorld) (pre post : List DomNode)
    (s : String) (hl : Bool)
    (hdom : w.dom = pre ++ DomNode.preview s hl :: DomNode.controls :: post)
    (hpre : ∀ n ∈ pre, isPreview n = false ∧ isControls n = false)
    (hctr : w.st.controlsRef = true) :
    (rejectChange w).dom
      = domNormalize (pre ++ [DomNode.text w.st.originalText]) ++ domNormalize post ∧
    (rejectChange w).st.previewSpanRef = false ∧
    (rejectChange w).st.controlsRef = false ∧
    (rejectChange w).st.outsideClickHandler = false ∧
    (rejectChange w).st.originalText = w.st.originalText := by
  have hPre : ∀ n ∈ pre, isPreview n = false := fun n hn => (hpre n hn).1
  have hPreC : ∀ n ∈ pre, isControls n = false := fun n hn => (hpre n hn).2
  have hanyP : w.dom.any isPreview = true := by
    rw [hdom]; simp [isPreview]
  have hmid : domNormalize (replacePreviewWithText w.st.originalText w.dom)
      = domNormalize (pre ++ [DomNode.text w.st.originalText]) ++
          DomNode.controls :: domNormalize post := by
    rw [hdom, replace_shape w.st.originalText pre s hl _ hPre]
    have hsplit : pre ++ DomNode.text w.st.originalText :: DomNode.controls :: post
        = (pre ++ [DomNode.text w.st.originalText]) ++ DomNode.controls :: post := by
      simp
    rw [hsplit, domNormalize_controls_split]
  have hstep : rejectChange w = finishDecision (triggerEditorChange
      { w with dom := domNormalize (replacePreviewWithText w.st.originalText w.dom) }) := by
    rw [rejectChange, hanyP]
    simp
  obtain ⟨D, hDdef⟩ : ∃ D, domNormalize (pre ++ [DomNode.text w.st.originalText]) ++
      DomNode.controls :: domNormalize post = D := ⟨_, rfl⟩
  rw [hstep, hmid, hDdef]
  have hw1dom : (triggerEditorChange { w with dom := D }).dom = D :=
    triggerEditorChange_dom _
  have hw1st : (triggerEditorChange { w with dom := D }).st = w.st :=
    triggerEditorChange_st _
  generalize hgen : triggerEditorChange { w with dom := D } = w1 at hw1dom hw1st
  have hguard : (w1.st.controlsRef && w1.dom.any isControls) = true := by
    rw [hw1st, hctr, hw1dom, ← hDdef]
    simp [isControls]
  have hrc : removeControls w1 = { w1 with
      dom := removeFirstControls w1.dom
      st := { w1.st with controlsRef := false } } := by
    rw [removeControls, hguard]
    simp
  have hrcdom : removeFirstControls w1.dom
      = domNormalize (pre ++ [DomNode.text w.st.originalText]) ++ domNormalize post := by
    rw [hw1dom, ← hDdef]
    apply removeFirstControls_shape
    apply domNormalize_controls_free
    intro n hn
    rcases List.mem_append.mp hn with h | h
    · exact hPreC n h
    · simp at h
      subst h
      rfl
  refine ⟨?_, ?_, ?_, ?_, ?_⟩ <;>
    simp [finishDecision, hrc, hrcdom, cleanup_controlsRef, cleanup_handler,
      cleanup_previewSpanRef, cleanup_originalText, hw1st]

/-- After a committed decision both accept and reject are no-ops: no
preview node in the DOM and all widget-held references cleared. -/
theorem decision_noop (w : InlineWorld)
    (h1 : w.dom.any isPreview = false)
    (h2 : w.st.controlsRef = false)
    (h3 : w.st.outsideClickHandler = false)
    (h4 : w.st.previewSpanRef = false) :
    acceptChange w = w ∧ rejectChange w = w := by
  obtain ⟨st, dom, alerts, requests, notified, anc⟩ := w
  obtain ⟨p, o, cs, hr, pr, cr, oh⟩ := st
  simp only at h1 h2 h3 h4
  subst h2 h3 h4
  constructor <;>
    simp [acceptChange, rejectChange, finishDecision, removeControls,
      cleanupEventHandlers, triggerEditorChange, h1]

/-- The committed children list contains no preview node. -/
theorem commit_no_preview (t : String) (pre post : List DomNode)
    (hpre : ∀ n ∈ pre, isPreview n = false)
    (hpost : ∀ n ∈ post, isPreview n = false) :
    (domNormalize (pre ++ [DomNode.text t]) ++ domNormalize post).any isPreview
      = false := by
  rw [List.any_append, any_domNormalize isPreview (fun a => rfl),
    any_domNormalize isPreview (fun a => rfl), List.any_append]
  simp only [Bool.or_eq_false_iff]
  refine ⟨⟨?_, ?_⟩, ?_⟩
  · exact List.any_eq_false.mpr (by intro x hx; simp [hpre x hx])
  · rfl
  · exact List.any_eq_false.mpr (by intro x hx; simp [hpost x hx])

/-- The committed children list contains no controls node. -/
theorem commit_no_controls (t : String) (pre post : List DomNode)
    (hpre : ∀ n ∈ pre, isControls n = false)
    (hpost : ∀ n ∈ post, isControls n = false) :
    (domNormalize (pre ++ [DomNode.text t]) ++ domNormalize post).any isControls
      = false := by
  rw [List.any_append, any_domNormalize isControls (fun a => rfl),
    any_domNormalize isControls (fun a => rfl), List.any_append]
  simp only [Bool.or_eq_false_iff]
  refine ⟨⟨?_, ?_⟩, ?_⟩
  · exact List.any_eq_false.mpr (by intro x hx; simp [hpre x hx])
  · rfl
  · exact List.any_eq_false.mpr (by intro x hx; simp [hpost x hx])

/-- Document text of the committed children list. -/
theorem commit_textOf (t : String) (pre post : List DomNode) :
    textOf (domNormalize (pre ++ [DomNode.text t]) ++ domNormalize post)
      = textOf pre ++ t ++ textOf post := by
  rw [textOf_append, textOf_domNormalize, textOf_domNormalize, textOf_append]
  have h : textOf [DomNode.text t] = t := by
    show t ++ "" = t
    exact String.append_empty t
  rw [h, String.append_assoc]

theorem surround_snapshot (st : InlineState) (r : String)
    (h1 : st.isProcessing = false) (h2 : trimString r ≠ "") :
    (surround st r).originalText = trimString r ∧
    (surround st r).currentSelectedText = trimString r ∧
    (surround st r).isProcessing = false ∧
    (surround st r).hasRange = true := by
  simp [surround, h1, h2]

theorem handleGenerate_run (w : InlineWorld) (pre sel post : List DomNode)
    (sTxt prompt key : String) (outcome : StreamOutcome)
    (h : trimString prompt ≠ "") :
    (handleGenerate w pre sel post sTxt prompt key outcome).dom
      = pre ++ DomNode.preview (generateTextWithStreaming key outcome).finalText true ::
          DomNode.controls :: post ∧
    (handleGenerate w pre sel post sTxt prompt key outcome).st.controlsRef = true ∧
    (handleGenerate w pre sel post sTxt prompt key outcome).st.outsideClickHandler = true ∧
    (handleGenerate w pre sel post sTxt prompt key outcome).st.previewSpanRef = true ∧
    (handleGenerate w pre sel post sTxt prompt key outcome).st.isProcessing = false ∧
    (handleGenerate w pre sel post sTxt prompt key outcome).st.originalText
      = w.st.originalText ∧
    (handleGenerate w pre sel post sTxt prompt key outcome).alerts = w.alerts ∧
    (handleGenerate w pre sel post sTxt prompt key outcome).notified = w.notified ∧
    (handleGenerate w pre sel post sTxt prompt key outcome).requests
      = w.requests +
        (if (generateTextWithStreaming key outcome).requestIssued then 1 else 0) := by
  simp [handleGenerate, h]

theorem gtws_ok (key : String) (chunks : List String) (hkey : key ≠ "")
    (hfull : trimString (accumulate chunks) ≠ "") :
    (generateTextWithStreaming key (StreamOutcome.ok chunks)).requestIssued = true ∧
    (generateTextWithStreaming key (StreamOutcome.ok chunks)).writes
      = renderWrites chunks ∧
    (generateTextWithStreaming key (StreamOutcome.ok chunks)).finalText
      = accumulate chunks := by
  simp [generateTextWithStreaming, hkey, hfull]

theorem gtws_fail (key : String) (yielded : List String) (msg : String)
    (hkey : key ≠ "") :
    (generateTextWithStreaming key (StreamOutcome.fail yielded msg)).requestIssued
      = true ∧
    (generateTextWithStreaming key (StreamOutcome.fail yielded msg)).finalText
      = "Error: " ++ msg := by
  simp [generateTextWithStreaming, hkey]

theorem generateText_returned_ne_empty (apiKey promptText : String)
    (outcome : StreamOutcome) :
    (generateText apiKey promptText outcome).returned ≠ "" := by
  rw [generateText.eq_def]
  by_cases hk : apiKey = ""
  · simp only [hk, if_true]
    decide
  · simp only [hk, if_false]
    by_cases hp : trimString promptText = ""
    · simp only [hp, if_true]
      decide
    · simp only [hp, if_false]
      cases outcome with
      | fail yielded msg =>
        exact append_left_ne_empty "Error generating text: " msg (by decide)
      | ok chunks =>
        by_cases hf : trimString (accumulate chunks) = ""
        · simp only [hf, if_true]
          decide
        · simp only [hf, if_false]
          exact hf

/-! Claim theorems. -/

/-- C2 counterexample: with the processing flag set (a generation in
flight), activating the generate action with a non-empty instruction still
issues a chat-completion request: handleGenerate never reads the flag, so
the flag does not prevent a second request. -/
theorem C2_counterexample :
    ({ idleState with isProcessing := true } : InlineState).isProcessing = true ∧
    (handleGenerate (mkWorld { idleState with isProcessing := true }
        [DomNode.text "hello"]) [] [DomNode.text "hello"] []
        "hello" "shorten" "k" (StreamOutcome.ok ["x"])).requests = 1 := by
  exact ⟨rfl, rfl⟩

/-- C2 amended: the boolean processing flag is checked at the start of the
selection-wrap entry point (surround), so invoking the inline tool again
while a generation is in flight is a no-op; the generate action itself
does not consult the flag. -/
theorem C2_surround_gate (st : InlineState) (rangeText : String)
    (h : st.isProcessing = true) :
    surround st rangeText = st := by
  simp [surround, h]

/-- C2 witness: surround is a no-op on a concrete processing state. -/
theorem C2_witness :
    surround { idleState with isProcessing := true } " text " =
      { idleState with isProcessing := true } :=
  C2_surround_gate { idleState with isProcessing := true } " text " rfl

/-- C3 counterexample: in the block tool the missing-key message is a
longer string than the claimed literal, so the output location does not
show exactly the literal. -/
theorem C3_counterexample :
    (generateText "" "hello" (StreamOutcome.ok [])).returned ≠ noApiKeyMsg ∧
    (generateButtonClick { prompt := "", generatedText := "" } "hello" ""
      (StreamOutcome.ok []) false).2.1
      = some (BlockView.readBack blockNoKeyMsg true) ∧
    blockNoKeyMsg ≠ noApiKeyMsg := by
  exact ⟨by decide, by decide, by decide⟩

/-- C3 amended: a missing API credential is detected before the
chat-completion call in both widgets and no request is issued; the output
location shows a message beginning with the literal, exactly the literal
in the inline tool and the literal extended by a hint in the block tool. -/
theorem C3_missing_key_preflight (promptText : String)
    (outcome : StreamOutcome) :
    (generateTextWithStreaming "" outcome).requestIssued = false ∧
    (generateTextWithStreaming "" outcome).finalText = noApiKeyMsg ∧
    (generateText "" promptText outcome).requestIssued = false ∧
    (generateText "" promptText outcome).returned = blockNoKeyMsg ∧
    noApiKeyMsg ++ " Please add your OpenAI API key." = blockNoKeyMsg := by
  exact ⟨by simp [generateTextWithStreaming], by simp [generateTextWithStreaming],
    by simp [generateText], by simp [generateText], by decide⟩

/-- C5: the incremental renderer appends each non-empty fragment to the
accumulator and writes the full accumulator each time, so the output node
text progresses through the concatenations of the fragment prefixes and
ends as the concatenation of all fragments. -/
theorem C5_renderer_progression (chunks : List String) (key : String)
    (hne : ∀ c ∈ chunks, c ≠ "") (hkey : key ≠ "") :
    renderWrites chunks = prefixJoins chunks ∧
    accumulate chunks = concatAll chunks ∧
    (trimString (accumulate chunks) ≠ "" →
      (generateTextWithStreaming key (StreamOutcome.ok chunks)).writes
        = prefixJoins chunks ∧
      (generateTextWithStreaming key (StreamOutcome.ok chunks)).finalText
        = concatAll chunks) := by
  refine ⟨renderWrites_eq chunks hne, accumulate_eq chunks, ?_⟩
  intro hfull
  have h := gtws_ok key chunks hkey hfull
  exact ⟨h.2.1.trans (renderWrites_eq chunks hne),
    h.2.2.trans (accumulate_eq chunks)⟩

/-- C5 witness: the scenario fragments from the spec. -/
theorem C5_witness :
    renderWrites ["The ", "swift ", "fox."]
      = ["The ", "The swift ", "The swift fox."] ∧
    (generateTextWithStreaming "k"
      (StreamOutcome.ok ["The ", "swift ", "fox."])).finalText
      = "The swift fox." := by
  have h := C5_renderer_progression ["The ", "swift ", "fox."] "k"
    (by decide) (by decide)
  refine ⟨?_, ?_⟩
  · rw [h.1]
    decide
  · rw [(h.2.2 (by decide)).2]
    decide

/-- C6 counterexample: in the block tool a whitespace-only submission does
change widget state: the returned warning string is persisted into
generatedText and the view is swapped. -/
theorem C6_counterexample :
    (generateButtonClick { prompt := "", generatedText := "" } " " "k"
      (StreamOutcome.ok []) false).1
      = { prompt := " ", generatedText := emptyPromptMsg } ∧
    (generateButtonClick { prompt := "", generatedText := "" } " " "k"
      (StreamOutcome.ok []) false).1
      ≠ { prompt := "", generatedText := "" } := by
  exact ⟨by decide, by decide⟩

/-- C6 amended: a blank or whitespace-only instruction issues no
chat-completion request in either tool; the inline tool only raises an
alert, leaving DOM, state, and request count unchanged; the block tool
returns the warning string (which its click handler then persists). -/
theorem C6_blank_prompt (w : InlineWorld) (pre sel post : List DomNode)
    (sTxt key promptText : String) (outcome : StreamOutcome)
    (h : trimString promptText = "") :
    handleGenerate w pre sel post sTxt promptText key outcome
      = { w with alerts := w.alerts ++ ["Please enter a prompt"] } ∧
    (generateText key promptText outcome).requestIssued = false ∧
    (key ≠ "" → (generateText key promptText outcome).returned = emptyPromptMsg) := by
  refine ⟨by simp [handleGenerate, h], ?_, ?_⟩
  · by_cases hk : key = "" <;> simp [generateText, hk, h]
  · intro hk
    simp [generateText, hk, h]

/-- C6 witness: whitespace-only instruction on a concrete world. -/
theorem C6_witness :
    (handleGenerate (mkWorld idleState [DomNode.text "t"]) []
      [DomNode.text "t"] [] "t" "   " "k" (StreamOutcome.ok [])).alerts
      = ["Please enter a prompt"] ∧
    (handleGenerate (mkWorld idleState [DomNode.text "t"]) []
      [DomNode.text "t"] [] "t" "   " "k" (StreamOutcome.ok [])).dom
      = [DomNode.text "t"] ∧
    (generateText "k" "   " (StreamOutcome.ok [])).returned = emptyPromptMsg := by
  have h := C6_blank_prompt (mkWorld idleState [DomNode.text "t"]) []
    [DomNode.text "t"] [] "t" "k" "   " (StreamOutcome.ok []) (by decide)
  refine ⟨?_, ?_, h.2.2 (by decide)⟩
  · rw [h.1]
    decide
  · rw [h.1]
    decide

/-- C7: the block tool render is determined solely by whether the
persisted generatedText is non-empty: non-empty renders the read-back view
seeded with it, empty renders the prompt-entry view. -/
theorem C7_render_mode (data : AITextData) (readOnly : Bool) :
    ((render data readOnly).isReadBack = true ↔ data.generatedText ≠ "") ∧
    (data.generatedText ≠ "" →
      render data readOnly = BlockView.readBack data.generatedText (!readOnly)) ∧
    (data.generatedText = "" →
      render data readOnly
        = BlockView.promptEntry data.prompt (!(trimString data.prompt = ""))
            (!readOnly)) := by
  by_cases h : data.generatedText = "" <;>
    simp [render, h, BlockView.isReadBack]

/-- C7 witness: the persisted record from the spec scenario renders the
read-back view directly. -/
theorem C7_witness :
    render { prompt := "x", generatedText := "y" } false
      = BlockView.readBack "y" true ∧
    (render { prompt := "x", generatedText := "y" } false).isReadBack = true := by
  have h := C7_render_mode { prompt := "x", generatedText := "y" } false
  refine ⟨h.2.1 (by decide), ?_⟩
  rw [h.2.1 (by decide)]
  rfl

/-- C9: generateText always returns a non-empty string, its error strings
included, and the generate click handler persists any non-empty return
into the data record and swaps the block to the read-back view. -/
theorem C9_block_persists_any_return (data : AITextData)
    (promptText apiKey : String) (outcome : StreamOutcome) (readOnly : Bool) :
    (generateText apiKey promptText outcome).returned ≠ "" ∧
    (generateButtonClick data promptText apiKey outcome readOnly).1
      = { prompt := promptText
          generatedText := (generateText apiKey promptText outcome).returned } ∧
    (generateButtonClick data promptText apiKey outcome readOnly).2.1
      = some (BlockView.readBack
          (generateText apiKey promptText outcome).returned (!readOnly)) := by
  have hne := generateText_returned_ne_empty apiKey promptText outcome
  refine ⟨hne, ?_, ?_⟩ <;> simp [generateButtonClick, hne]

/-- C1 counterexample: surround snapshots the trimmed selection, so for
the selection " hi " reject restores "hi", which is not byte-for-byte
equal to the text that was selected when the tool was invoked. -/
theorem C1_counterexample :
    textOf (rejectChange (handleGenerate
      (mkWorld (surround idleState " hi ") [DomNode.text " hi "])
      [] [DomNode.text " hi "] []
      (surround idleState " hi ").currentSelectedText "make it formal" "k"
      (StreamOutcome.ok ["X"]))).dom = "hi" ∧
    textOf (rejectChange (handleGenerate
      (mkWorld (surround idleState " hi ") [DomNode.text " hi "])
      [] [DomNode.text " hi "] []
      (surround idleState " hi ").currentSelectedText "make it formal" "k"
      (StreamOutcome.ok ["X"]))).dom ≠ " hi " := by
  exact ⟨by decide, by decide⟩

/-- C1 amended: rejecting a generation replaces the preview node with a
plain text node holding exactly the snapshotted text, which is the
whitespace-trimmed selection (byte-for-byte equal to the selected text
whenever that text carries no leading or trailing whitespace), with no
residual preview or controls nodes. -/
theorem C1_reject_restores_trimmed (w : InlineWorld)
    (pre sel post : List DomNode) (rangeText prompt key : String)
    (outcome : StreamOutcome)
    (hproc : w.st.isProcessing = false)
    (hsel : trimString rangeText ≠ "")
    (hprompt : trimString prompt ≠ "")
    (hpre : ∀ n ∈ pre, isPreview n = false ∧ isControls n = false)
    (hpost : ∀ n ∈ post, isPreview n = false ∧ isControls n = false) :
    ∀ w2, w2 = rejectChange (handleGenerate
        { w with st := surround w.st rangeText } pre sel post
        (surround w.st rangeText).currentSelectedText prompt key outcome) →
      w2.dom = domNormalize (pre ++ [DomNode.text (trimString rangeText)])
          ++ domNormalize post ∧
      textOf w2.dom = textOf pre ++ trimString rangeText ++ textOf post ∧
      w2.dom.any isPreview = false ∧
      w2.dom.any isControls = false ∧
      w2.st.previewSpanRef = false ∧
      w2.st.controlsRef = false ∧
      w2.st.outsideClickHandler = false := by
  intro w2 hw2
  have hsnap := surround_snapshot w.st rangeText hproc hsel
  obtain ⟨hdom, hctr, _, _, _, horig, _, _, _⟩ := handleGenerate_run
    { w with st := surround w.st rangeText } pre sel post
    (surround w.st rangeText).currentSelectedText prompt key outcome hprompt
  have horig2 : (handleGenerate { w with st := surround w.st rangeText }
      pre sel post (surround w.st rangeText).currentSelectedText prompt key
      outcome).st.originalText = trimString rangeText := by
    rw [horig]
    exact hsnap.1
  obtain ⟨hd, hp1, hp2, hp3, _⟩ := rejectChange_shape _ pre post _ true hdom hpre hctr
  rw [horig2] at hd
  subst hw2
  refine ⟨hd, ?_, ?_, ?_, hp1, hp2, hp3⟩
  · rw [hd]
    exact commit_textOf _ pre post
  · rw [hd]
    exact commit_no_preview _ pre post (fun n hn => (hpre n hn).1)
      (fun n hn => (hpost n hn).1)
  · rw [hd]
    exact commit_no_controls _ pre post (fun n hn => (hpre n hn).2)
      (fun n hn => (hpost n hn).2)

/-- C1 witness: rejecting on a concrete world restores the trimmed
snapshot. -/
theorem C1_witness :
    textOf (rejectChange (handleGenerate
      { mkWorld idleState [DomNode.text " hi "] with
          st := surround (mkWorld idleState [DomNode.text " hi "]).st " hi " }
      [] [DomNode.text " hi "] []
      (surround (mkWorld idleState [DomNode.text " hi "]).st " hi ").currentSelectedText
      "p" "k" (StreamOutcome.ok ["X"]))).dom = "hi" := by
  have h := C1_reject_restores_trimmed (mkWorld idleState [DomNode.text " hi "])
    [] [DomNode.text " hi "] [] " hi " "p" "k" (StreamOutcome.ok ["X"])
    rfl (by decide) (by decide) (by simp) (by simp)
  exact ((h _ rfl).2.1).trans (by decide)

/-- C4: accepting a completed inline generation replaces the preview node
by a plain text node holding exactly the accumulated streamed text,
normalizes adjacent text nodes, leaves no residual preview or controls
nodes, and deregisters the document-wide outside-click listener. -/
theorem C4_accept_commits_streamed_text (w : InlineWorld)
    (pre sel post : List DomNode) (sTxt prompt key : String)
    (chunks : List String)
    (hpre : ∀ n ∈ pre, isPreview n = false ∧ isControls n = false)
    (hpost : ∀ n ∈ post, isPreview n = false ∧ isControls n = false)
    (hprompt : trimString prompt ≠ "") (hkey : key ≠ "")
    (hfull : trimString (accumulate chunks) ≠ "") :
    ∀ w2, w2 = acceptChange (handleGenerate w pre sel post sTxt prompt key
        (StreamOutcome.ok chunks)) →
      w2.dom = domNormalize (pre ++ [DomNode.text (accumulate chunks)])
          ++ domNormalize post ∧
      textOf w2.dom = textOf pre ++ accumulate chunks ++ textOf post ∧
      w2.dom.any isPreview = false ∧
      w2.dom.any isControls = false ∧
      w2.st.outsideClickHandler = false ∧
      w2.st.previewSpanRef = false ∧
      w2.st.controlsRef = false := by
  intro w2 hw2
  obtain ⟨hdom, hctr, _, _, _, _, _, _, _⟩ := handleGenerate_run w pre sel post
    sTxt prompt key (StreamOutcome.ok chunks) hprompt
  have hfinal : (generateTextWithStreaming key (StreamOutcome.ok chunks)).finalText
      = accumulate chunks := (gtws_ok key chunks hkey hfull).2.2
  rw [hfinal] at hdom
  obtain ⟨hd, hp1, hp2, hp3, _⟩ := acceptChange_shape _ pre post _ true hdom hpre hctr
  subst hw2
  refine ⟨hd, ?_, ?_, ?_, hp3, hp1, hp2⟩
  · rw [hd]
    exact commit_textOf _ pre post
  · rw [hd]
    exact commit_no_preview _ pre post (fun n hn => (hpre n hn).1)
      (fun n hn => (hpost n hn).1)
  · rw [hd]
    exact commit_no_controls _ pre post (fun n hn => (hpre n hn).2)
      (fun n hn => (hpost n hn).2)

/-- C4 witness: the spec scenario, accepting after the mocked stream. -/
theorem C4_witness :
    textOf (acceptChange (handleGenerate
      (mkWorld idleState [DomNode.text "the quick fox"])
      [] [DomNode.text "the quick fox"] [] "the quick fox" "make it formal"
      "k" (StreamOutcome.ok ["The ", "swift ", "fox."]))).dom
      = "The swift fox." := by
  have h := C4_accept_commits_streamed_text
    (mkWorld idleState [DomNode.text "the quick fox"])
    [] [DomNode.text "the quick fox"] [] "the quick fox" "make it formal" "k"
    ["The ", "swift ", "fox."] (by simp) (by simp) (by decide) (by decide)
    (by decide)
  exact ((h _ rfl).2.1).trans (by decide)

/-- C8: on a completed generation, a second accept or reject after a first
accept or reject is a no-op: the first decision leaves no preview node in
the DOM and clears all widget-held references. -/
theorem C8_second_decision_noop (w : InlineWorld)
    (pre sel post : List DomNode) (sTxt prompt key : String)
    (outcome : StreamOutcome)
    (hpre : ∀ n ∈ pre, isPreview n = false ∧ isControls n = false)
    (hpost : ∀ n ∈ post, isPreview n = false ∧ isControls n = false)
    (hprompt : trimString prompt ≠ "") :
    ∀ w1, w1 = handleGenerate w pre sel post sTxt prompt key outcome →
      acceptChange (acceptChange w1) = acceptChange w1 ∧
      rejectChange (acceptChange w1) = acceptChange w1 ∧
      rejectChange (rejectChange w1) = rejectChange w1 ∧
      acceptChange (rejectChange w1) = rejectChange w1 := by
  intro w1 hw1
  obtain ⟨hdom, hctr, _, _, _, _, _, _, _⟩ := handleGenerate_run w pre sel post
    sTxt prompt key outcome hprompt
  subst hw1
  obtain ⟨hdA, hpA1, hpA2, hpA3, _⟩ := acceptChange_shape _ pre post _ true hdom hpre hctr
  obtain ⟨hdR, hpR1, hpR2, hpR3, _⟩ := rejectChange_shape _ pre post _ true hdom hpre hctr
  have hnpA : (acceptChange (handleGenerate w pre sel post sTxt prompt key
      outcome)).dom.any isPreview = false := by
    rw [hdA]
    exact commit_no_preview _ pre post (fun n hn => (hpre n hn).1)
      (fun n hn => (hpost n hn).1)
  have hnpR : (rejectChange (handleGenerate w pre sel post sTxt prompt key
      outcome)).dom.any isPreview = false := by
    rw [hdR]
    exact commit_no_preview _ pre post (fun n hn => (hpre n hn).1)
      (fun n hn => (hpost n hn).1)
  have hA := decision_noop _ hnpA hpA2 hpA3 hpA1
  have hR := decision_noop _ hnpR hpR2 hpR3 hpR1
  exact ⟨hA.1, hA.2, hR.2, hR.1⟩

/-- C8 witness: double accept on a concrete completed generation. -/
theorem C8_witness :
    acceptChange (acceptChange (handleGenerate
      (mkWorld idleState [DomNode.text "abc"]) [] [DomNode.text "abc"] []
      "abc" "p" "k" (StreamOutcome.ok ["X"])))
    = acceptChange (handleGenerate
      (mkWorld idleState [DomNode.text "abc"]) [] [DomNode.text "abc"] []
      "abc" "p" "k" (StreamOutcome.ok ["X"])) := by
  have h := C8_second_decision_noop (mkWorld idleState [DomNode.text "abc"])
    [] [DomNode.text "abc"] [] "abc" "p" "k" (StreamOutcome.ok ["X"])
    (by simp) (by simp) (by decide)
  exact (h _ rfl).1

/-- C10: after the streaming call ends in any way (content, no content, or
a caught error), the preview node is highlighted and the accept/reject
controls are shown, and accepting replaces the region with whatever text
the preview holds, the error message included on failure. -/
theorem C10_decision_after_any_outcome (w : InlineWorld)
    (pre sel post : List DomNode) (sTxt prompt key : String)
    (outcome : StreamOutcome)
    (hpre : ∀ n ∈ pre, isPreview n = false ∧ isControls n = false)
    (hpost : ∀ n ∈ post, isPreview n = false ∧ isControls n = false)
    (hprompt : trimString prompt ≠ "") :
    ∀ w1, w1 = handleGenerate w pre sel post sTxt prompt key outcome →
      w1.dom = pre ++
        DomNode.preview (generateTextWithStreaming key outcome).finalText true ::
        DomNode.controls :: post ∧
      w1.st.controlsRef = true ∧
      w1.st.outsideClickHandler = true ∧
      textOf (acceptChange w1).dom
        = textOf pre ++ (generateTextWithStreaming key outcome).finalText
            ++ textOf post ∧
      (∀ yielded msg, key ≠ "" → outcome = StreamOutcome.fail yielded msg →
        (generateTextWithStreaming key outcome).finalText = "Error: " ++ msg) := by
  intro w1 hw1
  obtain ⟨hdom, hctr, hoch, _, _, _, _, _, _⟩ := handleGenerate_run w pre sel post
    sTxt prompt key outcome hprompt
  subst hw1
  obtain ⟨hd, _, _, _, _⟩ := acceptChange_shape _ pre post _ true hdom hpre hctr
  refine ⟨hdom, hctr, hoch, ?_, ?_⟩
  · rw [hd]
    exact commit_textOf _ pre post
  · intro yielded msg hkey hout
    subst hout
    exact (gtws_fail key yielded msg hkey).2

/-- C10 witness: a transport failure still reaches the decision state, and
accepting commits the error text. -/
theorem C10_witness :
    (handleGenerate (mkWorld idleState [DomNode.text "s"]) []
      [DomNode.text "s"] [] "s" "p" "k" (StreamOutcome.fail [] "boom")).dom
      = [DomNode.preview "Error: boom" true, DomNode.controls] ∧
    textOf (acceptChange (handleGenerate (mkWorld idleState [DomNode.text "s"])
      [] [DomNode.text "s"] [] "s" "p" "k" (StreamOutcome.fail [] "boom"))).dom
      = "Error: boom" := by
  have h := C10_decision_after_any_outcome (mkWorld idleState [DomNode.text "s"])
    [] [DomNode.text "s"] [] "s" "p" "k" (StreamOutcome.fail [] "boom")
    (by simp) (by simp) (by decide)
  exact ⟨(h _ rfl).1.trans (by decide), (h _ rfl).2.2.2.1.trans (by decide)⟩

end AiText
